import Mathlib

/-!
Verification of the Philmont trek-selection scoring engine.

This file gives a shallow embedding of the scoring logic of `app.py`
(class `PhilmontScorer` and the table rows it reads) and proves the
frozen claims about it.

Modelling conventions:
* SQLite table rows become Lean structures; a nullable column becomes an
  `Option` field.  Columns that every write path of the repository fills
  with a Python boolean (the four difficulty flags, `area_important`,
  `max_altitude_important`; see `save_preferences` in `app.py` and
  `create_sample_crew` in `import_data.py`) are modelled as `Bool`;
  `NULL` in such a column behaves exactly like `false` under Python
  truthiness everywhere the scorer reads it.
* Python ints are `Int`, Python's true division results are `ℚ`.
* A Python runtime error (e.g. comparing an `int` with `None`) is
  modelled by `Option.none` of the computation.
* Python's stable sorts (`list.sort`, `sorted`) and SQL `ORDER BY` are
  modelled by `List.insertionSort`, a stable sort.
-/

namespace PhilSelect

/-- Row of the `programs` table (the fields the scorer reads). -/
structure Program where
  id : Nat
  name : String
deriving DecidableEq

/-- Row of the `program_scores` table: one member's interest score for one program. -/
structure ScoreRow where
  crew_id : Nat
  crew_member_id : Nat
  program_id : Nat
  score : Int
deriving DecidableEq

/-- Row of the `itinerary_programs` availability table. -/
structure ItineraryProgram where
  itinerary_id : Nat
  program_id : Nat
  is_available : Bool
deriving DecidableEq

/-- Row of the `crew_preferences` table (the fields the scorer reads).
The rank and threshold columns are written through `safe_int` in
`save_preferences` (`app.py`), which can store `NULL`; they are `Option Int`. -/
structure CrewPreferences where
  area_important : Bool
  area_rank_south : Option Int
  area_rank_central : Option Int
  area_rank_north : Option Int
  area_rank_valle_vidal : Option Int
  max_altitude_important : Bool
  max_altitude_threshold : Option Int
  difficulty_challenging : Bool
  difficulty_rugged : Bool
  difficulty_strenuous : Bool
  difficulty_super_strenuous : Bool
deriving DecidableEq

/-- Row of the `itineraries` table (the fields the scorer reads).
`difficulty`, `distance` and `max_altitude` are nullable (the importer
`import_data.py` stores `None` when the spreadsheet cell is empty). -/
structure Itinerary where
  id : Nat
  itinerary_code : String
  difficulty : Option String
  distance : Option Int
  max_altitude : Option Int
  covers_south : Bool
  covers_central : Bool
  covers_north : Bool
  covers_valle_vidal : Bool
deriving DecidableEq

/-- The tables of `philmont_selection.db` read by the scoring path. -/
structure Database where
  programs : List Program
  program_scores : List ScoreRow
  itineraries : List Itinerary
  itinerary_programs : List ItineraryProgram
  crew_preferences : List (Nat × CrewPreferences)
deriving DecidableEq

/-- Models `PhilmontScorer._get_crew_preferences`: `fetchone` on
`crew_preferences WHERE crew_id = ?`; the Python code turns a missing row
into the empty dict, modelled here as `none`. -/
def get_crew_preferences (db : Database) (crew_id : Nat) : Option CrewPreferences :=
  (db.crew_preferences.find? (fun pr => pr.1 == crew_id)).map (fun pr => pr.2)

/-- Models `crew_prefs.get(key, default)` for a boolean column: the dict is
empty exactly when the preferences row is absent, in which case the default
is returned; otherwise the stored value is returned. -/
def prefGetBool (prefs : Option CrewPreferences) (f : CrewPreferences → Bool)
    (dflt : Bool) : Bool :=
  match prefs with
  | none => dflt
  | some p => f p

/-- Models `crew_prefs.get('area_rank_…', 0)`: on the empty dict this is the
int `0`; on a present row it is the stored column value, which may be
`NULL` (Python `None`, modelled as `none`). -/
def prefGetRank (prefs : Option CrewPreferences) (f : CrewPreferences → Option Int) :
    Option Int :=
  match prefs with
  | none => some 0
  | some p => f p

/-- Models `crew_prefs.get('max_altitude_threshold', 10000)`: the default
`10000` is returned only when the dict is empty (no preferences row); a
present row yields its stored value, which may be `NULL`. -/
def prefGetThreshold (prefs : Option CrewPreferences) : Option Int :=
  match prefs with
  | none => some 10000
  | some p => p.max_altitude_threshold

/-- Models `PhilmontScorer._calculate_aggregate` (`app.py`).  Python's
`sorted` is a stable ascending sort; `Counter(scores).most_common(1)[0][0]`
returns the first value, in input order, whose multiplicity is maximal
(`Counter` preserves first-insertion order and `most_common` sorts stably
by count).  The caller only passes non-empty lists; on `[]` the `Average`,
`Median` and `Mode` branches would raise in Python and here return the
junk value `0`. -/
def calculate_aggregate (scores : List Int) (method : String) : ℚ :=
  if method = "Total" then ((scores.sum : Int) : ℚ)
  else if method = "Average" then ((scores.sum : Int) : ℚ) / (scores.length : ℚ)
  else if method = "Median" then
    let sorted_scores := scores.insertionSort (· ≤ ·)
    let n := sorted_scores.length
    if n % 2 = 0 then
      ((sorted_scores.getD (n / 2 - 1) 0 + sorted_scores.getD (n / 2) 0 : Int) : ℚ) / 2
    else ((sorted_scores.getD (n / 2) 0 : Int) : ℚ)
  else if method = "Mode" then
    match scores.find? (fun x => scores.all (fun y => decide (scores.count y ≤ scores.count x))) with
    | some x => (x : ℚ)
    | none => 0
  else ((scores.sum : Int) : ℚ)

/-- Result row of the SQL query in `get_program_scores`:
`SELECT p.id, p.name, ps.score FROM programs p JOIN program_scores ps ON
p.id = ps.program_id WHERE ps.crew_id = ? ORDER BY p.id, ps.crew_member_id`. -/
structure JoinedRow where
  program_id : Nat
  crew_member_id : Nat
  score : Int
deriving DecidableEq

/-- The `ORDER BY p.id, ps.crew_member_id` ordering. -/
def rowLE (a b : JoinedRow) : Prop :=
  a.program_id < b.program_id ∨
    (a.program_id = b.program_id ∧ a.crew_member_id ≤ b.crew_member_id)

instance : DecidableRel rowLE := fun a b => by unfold rowLE; infer_instance

/-- Models the SQL query of `get_program_scores`: the inner join of
`programs` and `program_scores` on `p.id = ps.program_id` (program ids are
the table's primary key) filtered by crew, sorted by program id then crew
member id. -/
def queryRows (db : Database) (crew_id : Nat) : List JoinedRow :=
  List.insertionSort rowLE
    (db.program_scores.filterMap (fun ps =>
      if ps.crew_id = crew_id ∧ db.programs.any (fun p => p.id == ps.program_id) then
        some ⟨ps.program_id, ps.crew_member_id, ps.score⟩
      else none))

/-- Models the grouping loop of `get_program_scores`: walk the sorted rows,
accumulating the scores of the current program (`current_program`,
`current_scores` in `app.py`), and emit `(program, aggregate)` whenever the
program id changes and once at the end. -/
def groupLoop (method : String) :
    List JoinedRow → Option (Nat × List Int) → List (Nat × ℚ)
  | [], none => []
  | [], some (p, cur) =>
    if cur.isEmpty then [] else [(p, calculate_aggregate cur method)]
  | r :: rest, none => groupLoop method rest (some (r.program_id, [r.score]))
  | r :: rest, some (p, cur) =>
    if r.program_id = p then
      groupLoop method rest (some (p, cur ++ [r.score]))
    else
      (if cur.isEmpty then [] else [(p, calculate_aggregate cur method)]) ++
        groupLoop method rest (some (r.program_id, [r.score]))

/-- Models `PhilmontScorer.get_program_scores`: the program-id-keyed dict of
aggregate scores, as an association list in insertion order. -/
def get_program_scores (db : Database) (crew_id : Nat) (method : String) :
    List (Nat × ℚ) :=
  groupLoop method (queryRows db crew_id) none

/-- Models the availability query of `_calculate_program_score`:
`SELECT ip.program_id FROM itinerary_programs ip WHERE ip.itinerary_id = ?
AND ip.is_available = 1`. -/
def availablePrograms (db : Database) (itinerary_id : Nat) : List Nat :=
  db.itinerary_programs.filterMap (fun ip =>
    if ip.itinerary_id = itinerary_id ∧ ip.is_available then some ip.program_id
    else none)

/-- Models `PhilmontScorer._calculate_program_score`: sum the aggregate
scores of the itinerary's available programs (absent keys contribute
nothing), then multiply by the fixed factor 1.5. -/
def calculate_program_score (db : Database) (itinerary_id : Nat)
    (program_scores : List (Nat × ℚ)) : ℚ :=
  let total_score : ℚ := (availablePrograms db itinerary_id).foldl
    (fun acc pid =>
      match program_scores.lookup pid with
      | some v => acc + v
      | none => acc) 0
  total_score * 1.5

/-- Models `PhilmontScorer._calculate_difficulty_score`: 100 when the
itinerary's difficulty letter is accepted by the matching crew flag
(defaulting to accepted when the preferences row is absent), else 0. -/
def calculate_difficulty_score (itin : Itinerary) (prefs : Option CrewPreferences) : Int :=
  let accepted : Bool :=
    if itin.difficulty = some "C" ∧ prefGetBool prefs (fun p => p.difficulty_challenging) true then
      true
    else if itin.difficulty = some "R" ∧ prefGetBool prefs (fun p => p.difficulty_rugged) true then
      true
    else if itin.difficulty = some "S" ∧ prefGetBool prefs (fun p => p.difficulty_strenuous) true then
      true
    else if itin.difficulty = some "SS" ∧ prefGetBool prefs (fun p => p.difficulty_super_strenuous) true then
      true
    else false
  if accepted then 100 else 0

/-- Models one iteration of the area loop in `_calculate_area_score`:
`if itinerary[area_field] and rank: score += (5 - rank) * 25`, where `rank`
is falsy when it is `0` or `NULL`. -/
def areaContribution (covered : Bool) (rank : Option Int) : Int :=
  match rank with
  | none => 0
  | some r => if covered ∧ r ≠ 0 then (5 - r) * 25 else 0

/-- Models `PhilmontScorer._calculate_area_score`. -/
def calculate_area_score (itin : Itinerary) (prefs : Option CrewPreferences) : Int :=
  if ¬ prefGetBool prefs (fun p => p.area_important) false then 0
  else
    areaContribution itin.covers_south (prefGetRank prefs (fun p => p.area_rank_south)) +
    areaContribution itin.covers_central (prefGetRank prefs (fun p => p.area_rank_central)) +
    areaContribution itin.covers_north (prefGetRank prefs (fun p => p.area_rank_north)) +
    areaContribution itin.covers_valle_vidal (prefGetRank prefs (fun p => p.area_rank_valle_vidal))

/-- Models `PhilmontScorer._calculate_altitude_score`.  `max_altitude or 0`
turns an unset altitude into 0.  The threshold is fetched with
`crew_prefs.get('max_altitude_threshold', 10000)`; when the preferences row
exists but stores `NULL`, Python receives `None` and the comparison
`max_altitude <= None` raises `TypeError` — modelled as `none`. -/
def calculate_altitude_score (itin : Itinerary) (prefs : Option CrewPreferences) :
    Option Int :=
  let max_altitude := itin.max_altitude.getD 0
  if prefGetBool prefs (fun p => p.max_altitude_important) false then
    match prefGetThreshold prefs with
    | none => none
    | some threshold => if max_altitude ≤ threshold then some 50 else some 0
  else some 0

/-- Models `PhilmontScorer._calculate_distance_score`:
`distance = itinerary['distance'] or 50` (so both `NULL` and `0` become 50,
Python `or` being driven by falsiness), then `max(0, 100 - abs(distance - 50))`. -/
def calculate_distance_score (itin : Itinerary) : Int :=
  let distance : Int :=
    match itin.distance with
    | none => 50
    | some d => if d = 0 then 50 else d
  max 0 (100 - |distance - 50|)

/-- One entry of the list built by `calculate_itinerary_scores`: the
itinerary, its five component scores, the total, and (after the sort) the
1-based rank. -/
structure RankedResult where
  itinerary : Itinerary
  program_score : ℚ
  difficulty_score : Int
  area_score : Int
  altitude_score : Int
  distance_score : Int
  total_score : ℚ
  ranking : Nat
deriving DecidableEq

/-- The per-itinerary body of the loop in `calculate_itinerary_scores`:
compute the five components and their sum.  Fails (`none`) exactly when the
altitude component raises.  The `ranking` field is filled in later and is
initialised to 0. -/
def scoreItinerary (db : Database) (prefs : Option CrewPreferences)
    (program_scores : List (Nat × ℚ)) (itin : Itinerary) : Option RankedResult :=
  match calculate_altitude_score itin prefs with
  | none => none
  | some alt =>
    let ps := calculate_program_score db itin.id program_scores
    let ds := calculate_difficulty_score itin prefs
    let ar := calculate_area_score itin prefs
    let dist := calculate_distance_score itin
    some
      { itinerary := itin
        program_score := ps
        difficulty_score := ds
        area_score := ar
        altitude_score := alt
        distance_score := dist
        total_score := ps + ((ds + ar + alt + dist : Int) : ℚ)
        ranking := 0 }

/-- Option-valued map: `some` of the list of results when every element
succeeds, `none` as soon as any element fails (a Python exception
propagating out of the loop). -/
def mapOption (f : α → Option β) : List α → Option (List β)
  | [] => some []
  | x :: xs =>
    match f x, mapOption f xs with
    | some y, some ys => some (y :: ys)
    | _, _ => none

/-- The catalog order: `SELECT * FROM itineraries ORDER BY itinerary_code`. -/
def codeLE (a b : Itinerary) : Prop :=
  a.itinerary_code ≤ b.itinerary_code

instance : DecidableRel codeLE := fun a b => by unfold codeLE; infer_instance

/-- Python's `results.sort(key=lambda x: x['total_score'], reverse=True)`:
a stable sort that puts `a` before `b` when `b`'s total is at most `a`'s. -/
def totalGE (a b : RankedResult) : Prop :=
  b.total_score ≤ a.total_score

instance : DecidableRel totalGE := fun a b => by unfold totalGE; infer_instance

/-- Models the `for i, result in enumerate(results, 1): result['ranking'] = i`
loop: assign consecutive ranks starting at `i`. -/
def rankAssign : List RankedResult → Nat → List RankedResult
  | [], _ => []
  | r :: rs, i => { r with ranking := i } :: rankAssign rs (i + 1)

/-- Models `PhilmontScorer.calculate_itinerary_scores`: build one scored
entry per catalog itinerary (catalog order by itinerary code), stable-sort
by total score descending, then assign ranks 1, 2, …. -/
def calculate_itinerary_scores (db : Database) (crew_id : Nat) (method : String) :
    Option (List RankedResult) :=
  let program_scores := get_program_scores db crew_id method
  let crew_prefs := get_crew_preferences db crew_id
  let itins := List.insertionSort codeLE db.itineraries
  match mapOption (scoreItinerary db crew_prefs program_scores) itins with
  | none => none
  | some results => some (rankAssign (List.insertionSort totalGE results) 1)

/-! Concrete fixtures used by the example conjuncts, counterexamples and
witnesses below. -/

/-- A baseline catalog itinerary. -/
def itinBase : Itinerary :=
  { id := 1, itinerary_code := "IT1", difficulty := some "S", distance := some 50,
    max_altitude := some 9000, covers_south := false, covers_central := false,
    covers_north := false, covers_valle_vidal := false }

/-- A baseline preferences row: all difficulty tiers accepted, nothing else
marked important, every nullable column `NULL`. -/
def prefsBase : CrewPreferences :=
  { area_important := false, area_rank_south := none, area_rank_central := none,
    area_rank_north := none, area_rank_valle_vidal := none,
    max_altitude_important := false, max_altitude_threshold := none,
    difficulty_challenging := true, difficulty_rugged := true,
    difficulty_strenuous := true, difficulty_super_strenuous := true }

/-! Helper lemmas. -/

/-- A non-empty list has an element maximising any `Nat`-valued function. -/
theorem exists_max_image_list {α : Type} (f : α → Nat) :
    ∀ l : List α, l ≠ [] → ∃ x ∈ l, ∀ y ∈ l, f y ≤ f x := by
  intro l
  induction l with
  | nil => intro h; exact absurd rfl h
  | cons a t ih =>
    intro _
    rcases eq_or_ne t [] with rfl | ht
    · exact ⟨a, List.mem_singleton_self a, by simp⟩
    · obtain ⟨m, hm, hmax⟩ := ih ht
      rcases le_total (f a) (f m) with hle | hle
      · exact ⟨m, List.mem_cons_of_mem a hm, by
          intro y hy
          rcases List.mem_cons.mp hy with rfl | hy
          · exact hle
          · exact hmax y hy⟩
      · exact ⟨a, List.mem_cons_self a t, by
          intro y hy
          rcases List.mem_cons.mp hy with rfl | hy
          · exact le_refl _
          · exact (hmax y hy).trans hle⟩

/-- `find?` returns the element of least index among those satisfying the
predicate: any other satisfying element occurs no earlier. -/
theorem find?_indexOf_le {α : Type} [DecidableEq α] (p : α → Bool) :
    ∀ (l : List α) (x y : α), l.find? p = some x → y ∈ l → p y = true →
      l.indexOf x ≤ l.indexOf y := by
  intro l
  induction l with
  | nil => intro x y h; simp at h
  | cons a t ih =>
    intro x y hfind hy hpy
    by_cases hpa : p a = true
    · rw [List.find?_cons_of_pos _ hpa] at hfind
      obtain rfl : a = x := by injection hfind
      simp [List.indexOf_cons_self]
    · rw [List.find?_cons_of_neg _ hpa] at hfind
      have hya : y ≠ a := by
        rintro rfl; exact hpa hpy
      have hxa : x ≠ a := by
        rintro rfl
        exact hpa (List.find?_some hfind)
      have hyt : y ∈ t := by
        rcases List.mem_cons.mp hy with rfl | h
        · exact absurd rfl hya
        · exact h
      rw [List.indexOf_cons_ne _ (fun h => hxa h.symm),
        List.indexOf_cons_ne _ (fun h => hya h.symm)]
      exact Nat.succ_le_succ (ih x y hfind hyt hpy)

/-- C2: for every non-empty list of integer scores the aggregator returns:
`Total` the sum; `Average` the arithmetic mean; `Median` the central value of
the ascending sort (mean of the two central values at even count); `Mode` a
most frequent value whose first occurrence is no later than that of any
equally frequent value.  Including the spec's concrete instances
`[10,20,30]` (Total 60, Average 20, Median 20, Mode 10) and `[10,20,30,40]`
(Median 25). -/
theorem C2_aggregate_methods (l : List Int) (hl : l ≠ []) :
    calculate_aggregate l "Total" = ((l.sum : Int) : ℚ) ∧
    calculate_aggregate l "Average" = ((l.sum : Int) : ℚ) / (l.length : ℚ) ∧
    (∀ s : List Int, s.Perm l → s.Sorted (· ≤ ·) →
      calculate_aggregate l "Median" =
        if l.length % 2 = 0 then
          (((s.getD (l.length / 2 - 1) 0 : Int) : ℚ) + ((s.getD (l.length / 2) 0 : Int) : ℚ)) / 2
        else ((s.getD (l.length / 2) 0 : Int) : ℚ)) ∧
    (∃ x : Int, calculate_aggregate l "Mode" = (x : ℚ) ∧ x ∈ l ∧
      (∀ y ∈ l, l.count y ≤ l.count x) ∧
      (∀ y ∈ l, l.count y = l.count x → l.indexOf x ≤ l.indexOf y)) ∧
    calculate_aggregate [10, 20, 30] "Total" = 60 ∧
    calculate_aggregate [10, 20, 30] "Average" = 20 ∧
    calculate_aggregate [10, 20, 30] "Median" = 20 ∧
    calculate_aggregate [10, 20, 30] "Mode" = 10 ∧
    calculate_aggregate [10, 20, 30, 40] "Median" = 25 := by
  refine ⟨by simp [calculate_aggregate], by simp [calculate_aggregate], ?_, ?_, by decide,
    by simp [calculate_aggregate]; norm_num, by decide, by decide,
    by simp [calculate_aggregate, List.insertionSort, List.orderedInsert]; norm_num⟩
  · intro s hperm hsorted
    have hs : s = l.insertionSort (· ≤ ·) :=
      List.eq_of_perm_of_sorted (hperm.trans (List.perm_insertionSort _ l).symm)
        hsorted (List.sorted_insertionSort _ l)
    rw [hs]
    simp [calculate_aggregate, List.length_insertionSort]
  · set p : Int → Bool :=
      fun x => l.all (fun y => decide (l.count y ≤ l.count x)) with hp
    rcases hfind : l.find? p with _ | x
    · exfalso
      obtain ⟨x, hx, hmax⟩ := exists_max_image_list (fun y => l.count y) l hl
      have : p x = true := by
        simp only [hp, List.all_eq_true, decide_eq_true_eq]
        exact fun y hy => hmax y hy
      have := List.find?_eq_none.mp hfind x hx
      simp_all
    · have hpx : p x = true := List.find?_some hfind
      have hmax : ∀ y ∈ l, l.count y ≤ l.count x := by
        simp only [hp, List.all_eq_true, decide_eq_true_eq] at hpx
        exact hpx
      refine ⟨x, ?_, List.mem_of_find?_eq_some hfind, hmax, ?_⟩
      · simp [calculate_aggregate, hp] at hfind ⊢
        rw [hfind]
      · intro y hy hcnt
        refine find?_indexOf_le p l x y hfind hy ?_
        simp only [hp, List.all_eq_true, decide_eq_true_eq]
        intro z hz
        rw [hcnt]
        exact hmax z hz

/-- C2 witness: the aggregator at the spec's concrete even-count input. -/
theorem C2_aggregate_methods_witness :
    calculate_aggregate [10, 20, 30, 40] "Median" = 25 :=
  (C2_aggregate_methods [10, 20, 30, 40] (by decide)).2.2.2.2.2.2.2.2

/-- C3: aggregating with any method name other than the four exact strings
behaves exactly as `Total` (silent fallback, not an error). -/
theorem C3_unknown_method_fallback (l : List Int) (hl : l ≠ []) (method : String)
    (hT : method ≠ "Total") (hA : method ≠ "Average") (hM : method ≠ "Median")
    (hMo : method ≠ "Mode") :
    calculate_aggregate l method = calculate_aggregate l "Total" := by
  simp [calculate_aggregate, hT, hA, hM, hMo]

/-- C3 witness: method `"Bogus"` on `[10,20,30]` coincides with `"Total"`. -/
theorem C3_unknown_method_fallback_witness :
    calculate_aggregate [10, 20, 30] "Bogus" = calculate_aggregate [10, 20, 30] "Total" :=
  C3_unknown_method_fallback [10, 20, 30] (by decide) "Bogus" (by decide) (by decide)
    (by decide) (by decide)

/-- C4: evaluation of the altitude component at the failing state.  With a
preferences row whose `max_altitude_important` is set but whose
`max_altitude_threshold` column is `NULL` (exactly what `save_preferences`
stores when the box is checked and the threshold field left blank), the
comparison `max_altitude <= None` raises in Python — the embedded
computation is `none`, not the score `50` the claim requires.  With the row
absent, or a numeric threshold stored, the component behaves as documented. -/
theorem C4_altitude_null_threshold_raises :
    calculate_altitude_score itinBase
      (some { prefsBase with max_altitude_important := true }) = none ∧
    calculate_altitude_score itinBase none = some 0 ∧
    calculate_altitude_score itinBase
      (some { prefsBase with
                max_altitude_important := true
                max_altitude_threshold := some 8000 }) = some 0 ∧
    calculate_altitude_score itinBase
      (some { prefsBase with
                max_altitude_important := true
                max_altitude_threshold := some 12000 }) = some 50 := by
  decide

/-- C6: the program component is 1.5 times the sum, over the itinerary's
available programs, of their aggregate scores (absent programs contributing
0); and the spec's instance with aggregate scores 40 and 60 yields 150. -/
theorem C6_program_component (db : Database) (itinerary_id : Nat)
    (table : List (Nat × ℚ)) :
    calculate_program_score db itinerary_id table =
      1.5 * ((availablePrograms db itinerary_id).map
        (fun pid => ((table.lookup pid).getD 0))).sum ∧
    calculate_program_score
      { programs := [], program_scores := [], itineraries := [],
        itinerary_programs := [⟨1, 7, true⟩, ⟨1, 8, true⟩], crew_preferences := [] }
      1 [(7, 40), (8, 60)] = 150 := by
  constructor
  · have key : ∀ (xs : List Nat) (acc : ℚ),
        xs.foldl (fun acc pid =>
          match table.lookup pid with
          | some v => acc + v
          | none => acc) acc =
          acc + (xs.map (fun pid => ((table.lookup pid).getD 0))).sum := by
      intro xs
      induction xs with
      | nil => intro acc; simp
      | cons a t ih =>
        intro acc
        rcases h : table.lookup a with _ | v <;>
          simp [List.foldl_cons, h, ih, Option.getD] <;> ring
    simp only [calculate_program_score, key _ 0, zero_add]
    ring
  · simp [calculate_program_score, availablePrograms, List.lookup]
    norm_num

/-- The crew flag guarding a difficulty letter, stated from the spec: each of
the four tiers maps to its own boolean flag; any other letter is accepted by
no flag. -/
def specAcceptsDifficulty (d : Option String) (p : CrewPreferences) : Bool :=
  if d = some "C" then p.difficulty_challenging
  else if d = some "R" then p.difficulty_rugged
  else if d = some "S" then p.difficulty_strenuous
  else if d = some "SS" then p.difficulty_super_strenuous
  else false

/-- C7: for an itinerary in one of the four difficulty tiers the component is
100 when the preferences row is absent (default-accepted) and otherwise 100
or 0 as the matching flag is true or false; with the spec's instances for
difficulty `"S"`. -/
theorem C7_difficulty_gate (itin : Itinerary) (prefs : Option CrewPreferences)
    (h : itin.difficulty = some "C" ∨ itin.difficulty = some "R" ∨
        itin.difficulty = some "S" ∨ itin.difficulty = some "SS") :
    calculate_difficulty_score itin prefs =
      (match prefs with
       | none => 100
       | some p => if specAcceptsDifficulty itin.difficulty p then 100 else 0) ∧
    calculate_difficulty_score itinBase
      (some { prefsBase with difficulty_strenuous := false }) = 0 ∧
    calculate_difficulty_score itinBase (some prefsBase) = 100 ∧
    calculate_difficulty_score itinBase none = 100 := by
  refine ⟨?_, by decide, by decide, by decide⟩
  rcases prefs with _ | p
  · rcases h with h | h | h | h <;>
      simp [calculate_difficulty_score, specAcceptsDifficulty, prefGetBool, h]
  · rcases h with h | h | h | h <;>
      simp only [calculate_difficulty_score, specAcceptsDifficulty, prefGetBool, h] <;>
      [cases p.difficulty_challenging; cases p.difficulty_rugged;
        cases p.difficulty_strenuous; cases p.difficulty_super_strenuous] <;>
      simp

/-- C7 witness: the difficulty gate at difficulty `"S"` with
`difficulty_strenuous = false`. -/
theorem C7_difficulty_gate_witness :
    calculate_difficulty_score itinBase
      (some { prefsBase with difficulty_strenuous := false }) = 0 :=
  (C7_difficulty_gate itinBase (some { prefsBase with difficulty_strenuous := false })
    (Or.inr (Or.inr (Or.inl rfl)))).2.1

/-- Points one region contributes, stated from the spec: a region covered by
the itinerary and given a non-zero rank contributes `(5 - rank) * 25`;
uncovered or unranked (0 or unset) regions contribute nothing. -/
def specRegionPoints (covered : Bool) (rank : Option Int) : Int :=
  if covered then
    match rank with
    | none => 0
    | some r => if r = 0 then 0 else (5 - r) * 25
  else 0

/-- The per-region Python conjunction agrees with the spec's reading. -/
theorem areaContribution_eq_specRegionPoints (covered : Bool) (rank : Option Int) :
    areaContribution covered rank = specRegionPoints covered rank := by
  rcases rank with _ | r
  · cases covered <;> simp [areaContribution, specRegionPoints]
  · cases covered <;> by_cases hr : r = 0 <;>
      simp [areaContribution, specRegionPoints, hr]

/-- C8: the area component is 0 when area is not marked important (including
an absent preferences row), and otherwise sums `(5 - rank) * 25` over the
covered, non-zero-ranked regions; with the spec's instance south rank 1 +
north rank 3 = 150. -/
theorem C8_area_component (itin : Itinerary) (prefs : Option CrewPreferences) :
    calculate_area_score itin prefs =
      (match prefs with
       | none => 0
       | some p =>
         if p.area_important then
           specRegionPoints itin.covers_south p.area_rank_south +
           specRegionPoints itin.covers_central p.area_rank_central +
           specRegionPoints itin.covers_north p.area_rank_north +
           specRegionPoints itin.covers_valle_vidal p.area_rank_valle_vidal
         else 0) ∧
    calculate_area_score
      { itinBase with covers_south := true, covers_north := true }
      (some { prefsBase with
                area_important := true
                area_rank_south := some 1
                area_rank_north := some 3 }) = 150 := by
  refine ⟨?_, by decide⟩
  rcases prefs with _ | p
  · simp [calculate_area_score, prefGetBool]
  · cases ha : p.area_important <;>
      simp [calculate_area_score, prefGetBool, prefGetRank, ha,
        areaContribution_eq_specRegionPoints]

/-- C9 counterexample: an itinerary whose recorded distance is exactly 0
scores 100, not the value `max(0, 100 - |0 - 50|) = 50` the claim's formula
assigns to `d = 0`. -/
theorem C9_distance_zero_counterexample :
    calculate_distance_score { itinBase with distance := some 0 } = 100 ∧
    calculate_distance_score { itinBase with distance := some 0 } ≠
      max 0 (100 - |(0 : Int) - 50|) := by
  decide

/-- C9 amended: for every itinerary whose recorded distance is not exactly 0,
the distance component is `max(0, 100 - |d - 50|)` with an unset distance
treated as 50 miles; a recorded 0, being falsy in Python, is also replaced
by 50 (covered by C10).  With the spec's instances 50 ↦ 100, 80 ↦ 70,
150 ↦ 0. -/
theorem C9_distance_curve_amended (itin : Itinerary) (h : itin.distance ≠ some 0) :
    calculate_distance_score itin = max 0 (100 - |itin.distance.getD 50 - 50|) ∧
    calculate_distance_score itinBase = 100 ∧
    calculate_distance_score { itinBase with distance := some 80 } = 70 ∧
    calculate_distance_score { itinBase with distance := some 150 } = 0 := by
  refine ⟨?_, by decide, by decide, by decide⟩
  rcases hd : itin.distance with _ | d
  · simp [calculate_distance_score, hd]
  · have hdz : d ≠ 0 := by rintro rfl; exact h hd
    simp [calculate_distance_score, hd, hdz]

/-- C9 witness: the amended curve at distance 80. -/
theorem C9_distance_curve_amended_witness :
    calculate_distance_score { itinBase with distance := some 80 } = 70 :=
  (C9_distance_curve_amended { itinBase with distance := some 80 } (by decide)).2.2.1

/-- C10: a recorded distance of exactly 0 miles is falsy in Python, so the
scorer substitutes 50 miles for it: the component is 100, identical to an
unset distance. -/
theorem C10_distance_zero_full_score (itin : Itinerary) (h : itin.distance = some 0) :
    calculate_distance_score itin = 100 ∧
    calculate_distance_score itin = calculate_distance_score { itin with distance := none } := by
  simp [calculate_distance_score, h]

/-- C10 witness: the zero-distance substitution at a concrete itinerary. -/
theorem C10_distance_zero_full_score_witness :
    calculate_distance_score { itinBase with distance := some 0 } = 100 :=
  (C10_distance_zero_full_score { itinBase with distance := some 0 } rfl).1

/-- Keys emitted by the grouping loop: exactly the program ids of the rows
walked, plus the pending accumulator's program when its score list is
non-empty. -/
theorem mem_keys_groupLoop (m : String) :
    ∀ (rows : List JoinedRow) (acc : Option (Nat × List Int)) (x : Nat),
      (x ∈ (groupLoop m rows acc).map Prod.fst) ↔
        ((∃ r ∈ rows, r.program_id = x) ∨
          ∃ p cur, acc = some (p, cur) ∧ p = x ∧ cur ≠ []) := by
  intro rows
  induction rows with
  | nil =>
    intro acc x
    rcases acc with _ | ⟨p, cur⟩
    · simp [groupLoop]
    · rcases cur with _ | ⟨c, cs⟩
      · simp [groupLoop]
      · rw [show groupLoop m [] (some (p, c :: cs)) =
            [(p, calculate_aggregate (c :: cs) m)] from rfl]
        simp only [List.map_cons, List.map_nil, List.mem_singleton]
        constructor
        · intro hxp
          exact Or.inr ⟨p, c :: cs, rfl, hxp.symm, by simp⟩
        · rintro (⟨r, hr, -⟩ | ⟨p', cur', hacc, hpx, -⟩)
          · exact absurd hr (List.not_mem_nil r)
          · obtain ⟨rfl, rfl⟩ : p = p' ∧ c :: cs = cur' := by simpa using hacc
            exact hpx.symm
  | cons r rest ih =>
    intro acc x
    rcases acc with _ | ⟨p, cur⟩
    · rw [show groupLoop m (r :: rest) none =
          groupLoop m rest (some (r.program_id, [r.score])) from rfl, ih]
      constructor
      · rintro (⟨r', hr', hx⟩ | ⟨p', cur', hacc, hpx, -⟩)
        · exact Or.inl ⟨r', List.mem_cons_of_mem _ hr', hx⟩
        · obtain ⟨rfl, rfl⟩ : r.program_id = p' ∧ [r.score] = cur' := by simpa using hacc
          exact Or.inl ⟨r, List.mem_cons_self _ _, hpx⟩
      · rintro (⟨r', hr', hx⟩ | ⟨p', cur', hacc, -⟩)
        · rcases List.mem_cons.mp hr' with rfl | hmem
          · exact Or.inr ⟨r'.program_id, [r'.score], rfl, hx, by simp⟩
          · exact Or.inl ⟨r', hmem, hx⟩
        · exact absurd hacc (by simp)
    · by_cases hpr : r.program_id = p
      · rw [show groupLoop m (r :: rest) (some (p, cur)) =
            (if r.program_id = p then
              groupLoop m rest (some (p, cur ++ [r.score]))
            else
              (if cur.isEmpty then [] else [(p, calculate_aggregate cur m)]) ++
                groupLoop m rest (some (r.program_id, [r.score]))) from rfl,
          if_pos hpr, ih]
        constructor
        · rintro (⟨r', hr', hx⟩ | ⟨p', cur', hacc, hpx, -⟩)
          · exact Or.inl ⟨r', List.mem_cons_of_mem _ hr', hx⟩
          · obtain ⟨rfl, rfl⟩ : p = p' ∧ cur ++ [r.score] = cur' := by simpa using hacc
            exact Or.inl ⟨r, List.mem_cons_self _ _, hpr.trans hpx⟩
        · rintro (⟨r', hr', hx⟩ | ⟨p', cur', hacc, hpx, -⟩)
          · rcases List.mem_cons.mp hr' with rfl | hmem
            · exact Or.inr ⟨p, _, rfl, hpr.symm.trans hx, by simp⟩
            · exact Or.inl ⟨r', hmem, hx⟩
          · obtain ⟨rfl, rfl⟩ : p = p' ∧ cur = cur' := by simpa using hacc
            exact Or.inr ⟨p, cur ++ [r.score], rfl, hpx, by simp⟩
      · rw [show groupLoop m (r :: rest) (some (p, cur)) =
            (if r.program_id = p then
              groupLoop m rest (some (p, cur ++ [r.score]))
            else
              (if cur.isEmpty then [] else [(p, calculate_aggregate cur m)]) ++
                groupLoop m rest (some (r.program_id, [r.score]))) from rfl,
          if_neg hpr]
        rcases cur with _ | ⟨c, cs⟩
        · rw [List.isEmpty_nil, if_pos rfl, List.nil_append, ih]
          constructor
          · rintro (⟨r', hr', hx⟩ | ⟨p', cur', hacc, hpx, -⟩)
            · exact Or.inl ⟨r', List.mem_cons_of_mem _ hr', hx⟩
            · obtain ⟨rfl, rfl⟩ : r.program_id = p' ∧ [r.score] = cur' := by simpa using hacc
              exact Or.inl ⟨r, List.mem_cons_self _ _, hpx⟩
          · rintro (⟨r', hr', hx⟩ | ⟨p', cur', hacc, -, hne⟩)
            · rcases List.mem_cons.mp hr' with rfl | hmem
              · exact Or.inr ⟨r'.program_id, [r'.score], rfl, hx, by simp⟩
              · exact Or.inl ⟨r', hmem, hx⟩
            · obtain ⟨rfl, rfl⟩ : p = p' ∧ ([] : List Int) = cur' := by simpa using hacc
              exact absurd rfl hne
        · rw [show ((c :: cs).isEmpty : Bool) = false from rfl, if_neg (by simp),
            List.singleton_append, List.map_cons, List.mem_cons, ih]
          constructor
          · rintro (hxp | (⟨r', hr', hx⟩ | ⟨p', cur', hacc, hpx, -⟩))
            · exact Or.inr ⟨p, c :: cs, rfl, hxp.symm, by simp⟩
            · exact Or.inl ⟨r', List.mem_cons_of_mem _ hr', hx⟩
            · obtain ⟨rfl, rfl⟩ : r.program_id = p' ∧ [r.score] = cur' := by simpa using hacc
              exact Or.inl ⟨r, List.mem_cons_self _ _, hpx⟩
          · rintro (⟨r', hr', hx⟩ | ⟨p', cur', hacc, hpx, -⟩)
            · rcases List.mem_cons.mp hr' with rfl | hmem
              · exact Or.inr (Or.inr ⟨r'.program_id, [r'.score], rfl, hx, by simp⟩)
              · exact Or.inr (Or.inl ⟨r', hmem, hx⟩)
            · obtain ⟨rfl, rfl⟩ : p = p' ∧ c :: cs = cur' := by simpa using hacc
              exact Or.inl hpx.symm

/-- Membership in the joined, crew-filtered, sorted row list of
`get_program_scores`. -/
theorem mem_queryRows (db : Database) (crew_id : Nat) (r : JoinedRow) :
    r ∈ queryRows db crew_id ↔
      ∃ ps ∈ db.program_scores, ps.crew_id = crew_id ∧
        (∃ p ∈ db.programs, p.id = ps.program_id) ∧
        r = ⟨ps.program_id, ps.crew_member_id, ps.score⟩ := by
  unfold queryRows
  rw [List.mem_insertionSort, List.mem_filterMap]
  constructor
  · rintro ⟨ps, hps, hr⟩
    by_cases hc : ps.crew_id = crew_id ∧ db.programs.any (fun p => p.id == ps.program_id)
    · rw [if_pos hc] at hr
      obtain ⟨p, hp, hpid⟩ := by
        have := hc.2
        simpa [List.any_eq_true] using this
      exact ⟨ps, hps, hc.1, ⟨p, hp, hpid⟩, (Option.some.injEq _ _ ▸ hr).symm⟩
    · rw [if_neg hc] at hr
      exact absurd hr (by simp)
  · rintro ⟨ps, hps, hcrew, ⟨p, hp, hpid⟩, rfl⟩
    refine ⟨ps, hps, ?_⟩
    have hany : db.programs.any (fun q => q.id == ps.program_id) = true := by
      simp only [List.any_eq_true, beq_iff_eq]
      exact ⟨p, hp, hpid⟩
    rw [if_pos ⟨hcrew, hany⟩]

/-- C5: the program score table has a key for exactly those catalog programs
with at least one score row for the crew; programs with no score row are
absent, and score rows whose program id is not in the catalog are silently
excluded (inner-join semantics). -/
theorem C5_program_table_keys (db : Database) (crew_id : Nat) (method : String)
    (pid : Nat) :
    (pid ∈ (get_program_scores db crew_id method).map Prod.fst) ↔
      ((∃ p ∈ db.programs, p.id = pid) ∧
        ∃ sr ∈ db.program_scores, sr.crew_id = crew_id ∧ sr.program_id = pid) := by
  rw [get_program_scores, mem_keys_groupLoop]
  constructor
  · rintro (⟨r, hr, rfl⟩ | ⟨p, cur, h, -⟩)
    · obtain ⟨ps, hps, hcrew, hcat, rfl⟩ := (mem_queryRows db crew_id r).mp hr
      exact ⟨hcat, ps, hps, hcrew, rfl⟩
    · exact absurd h (by simp)
  · rintro ⟨hcat, sr, hsr, hcrew, hpid⟩
    refine Or.inl ⟨⟨sr.program_id, sr.crew_member_id, sr.score⟩, ?_, hpid⟩
    exact (mem_queryRows db crew_id _).mpr ⟨sr, hsr, hcrew, hpid ▸ hcat, rfl⟩

instance : IsTotal Itinerary codeLE :=
  ⟨fun a b => le_total a.itinerary_code b.itinerary_code⟩

instance : IsTrans Itinerary codeLE :=
  ⟨fun _ _ _ hab hbc => le_trans hab hbc⟩

instance : IsTotal RankedResult totalGE :=
  ⟨fun a b => le_total b.total_score a.total_score⟩

instance : IsTrans RankedResult totalGE :=
  ⟨fun _ _ _ hab hbc => le_trans hbc hab⟩

/-- Rank assignment keeps the length. -/
theorem rankAssign_length : ∀ (l : List RankedResult) (i : Nat),
    (rankAssign l i).length = l.length := by
  intro l
  induction l with
  | nil => intro i; rfl
  | cons r rs ih => intro i; simp [rankAssign, ih]

/-- After rank assignment starting at `i`, position `j` carries rank `i + j`. -/
theorem rankAssign_get : ∀ (l : List RankedResult) (i j : Nat)
    (hj : j < (rankAssign l i).length),
    ((rankAssign l i).get ⟨j, hj⟩).ranking = i + j := by
  intro l
  induction l with
  | nil => intro i j hj; simp [rankAssign] at hj
  | cons r rs ih =>
    intro i j hj
    cases j with
    | zero => rfl
    | succ k =>
      have hk : k < (rankAssign rs (i + 1)).length := by
        simpa [rankAssign] using hj
      have := ih (i + 1) k hk
      simpa [rankAssign, List.get, Nat.add_assoc, Nat.add_comm 1 k] using this

/-- Rank assignment only rewrites the `ranking` field. -/
theorem rankAssign_mem : ∀ {l : List RankedResult} {i : Nat} {r : RankedResult},
    r ∈ rankAssign l i → ∃ r0 ∈ l, ∃ j, r = { r0 with ranking := j } := by
  intro l
  induction l with
  | nil => intro i r h; simp [rankAssign] at h
  | cons r0 rs ih =>
    intro i r h
    rcases List.mem_cons.mp h with rfl | h
    · exact ⟨r0, List.mem_cons_self _ _, i, rfl⟩
    · obtain ⟨r1, hr1, j, rfl⟩ := ih h
      exact ⟨r1, List.mem_cons_of_mem _ hr1, j, rfl⟩

/-- Rank assignment keeps the sequence of itineraries. -/
theorem rankAssign_map_itinerary : ∀ (l : List RankedResult) (i : Nat),
    (rankAssign l i).map (fun r => r.itinerary) = l.map (fun r => r.itinerary) := by
  intro l
  induction l with
  | nil => intro i; rfl
  | cons r rs ih => intro i; simp [rankAssign, ih]

/-- Rank assignment preserves the descending-total ordering. -/
theorem rankAssign_pairwise : ∀ (l : List RankedResult) (i : Nat),
    l.Pairwise totalGE → (rankAssign l i).Pairwise totalGE := by
  intro l
  induction l with
  | nil => intro i _; exact List.Pairwise.nil
  | cons r rs ih =>
    intro i h
    rcases List.pairwise_cons.mp h with ⟨hhead, htail⟩
    refine List.pairwise_cons.mpr ⟨?_, ih (i + 1) htail⟩
    intro b hb
    obtain ⟨b0, hb0, j, rfl⟩ := rankAssign_mem hb
    exact hhead b0 hb0

/-- Rank assignment commutes with filtering on the total and reading the
itinerary code. -/
theorem rankAssign_filter_map_code : ∀ (l : List RankedResult) (i : Nat) (t : ℚ),
    (((rankAssign l i).filter (fun r => decide (r.total_score = t))).map
      (fun r => r.itinerary.itinerary_code)) =
    ((l.filter (fun r => decide (r.total_score = t))).map
      (fun r => r.itinerary.itinerary_code)) := by
  intro l
  induction l with
  | nil => intro i t; rfl
  | cons r rs ih =>
    intro i t
    by_cases ht : r.total_score = t
    · simp [rankAssign, List.filter_cons, ht, ih]
    · simp [rankAssign, List.filter_cons, ht, ih]

/-- An inverse for a successful `mapOption`. -/
theorem mapOption_map_eq {α β : Type} (f : α → Option β) (g : β → α)
    (hinv : ∀ x y, f x = some y → g y = x) :
    ∀ (l : List α) (ys : List β), mapOption f l = some ys → ys.map g = l := by
  intro l
  induction l with
  | nil =>
    intro ys h
    obtain rfl : ([] : List β) = ys := by simpa [mapOption] using h
    rfl
  | cons x xs ih =>
    intro ys h
    rw [mapOption] at h
    rcases hfx : f x with _ | y
    · rw [hfx] at h
      exact absurd h (by simp)
    · rcases hrest : mapOption f xs with _ | zs
      · rw [hfx, hrest] at h
        exact absurd h (by simp)
      · rw [hfx, hrest] at h
        obtain rfl : y :: zs = ys := by simpa using h
        simp [hinv x y hfx, ih zs hrest]

/-- Every element of a successful `mapOption` comes from an element of the
input list. -/
theorem mem_mapOption {α β : Type} (f : α → Option β) :
    ∀ {l : List α} {ys : List β} {y : β}, mapOption f l = some ys → y ∈ ys →
      ∃ x ∈ l, f x = some y := by
  intro l
  induction l with
  | nil =>
    intro ys y h hy
    obtain rfl : ([] : List β) = ys := by simpa [mapOption] using h
    exact absurd hy (List.not_mem_nil y)
  | cons x xs ih =>
    intro ys y h hy
    rw [mapOption] at h
    rcases hfx : f x with _ | z
    · rw [hfx] at h
      exact absurd h (by simp)
    · rcases hrest : mapOption f xs with _ | zs
      · rw [hfx, hrest] at h
        exact absurd h (by simp)
      · rw [hfx, hrest] at h
        obtain rfl : z :: zs = ys := by simpa using h
        rcases List.mem_cons.mp hy with rfl | hy
        · exact ⟨x, List.mem_cons_self _ _, hfx⟩
        · obtain ⟨x', hx', hfx'⟩ := ih hrest hy
          exact ⟨x', List.mem_cons_of_mem _ hx', hfx'⟩

/-- Shape of a successful per-itinerary scoring step: it records the
itinerary it was given, and its total is the sum of the five components. -/
theorem scoreItinerary_shape {db : Database} {prefs : Option CrewPreferences}
    {table : List (Nat × ℚ)} {itin : Itinerary} {r : RankedResult}
    (h : scoreItinerary db prefs table itin = some r) :
    r.itinerary = itin ∧
      r.total_score = r.program_score + (r.difficulty_score : ℚ) + (r.area_score : ℚ) +
        (r.altitude_score : ℚ) + (r.distance_score : ℚ) := by
  rcases halt : calculate_altitude_score itin prefs with _ | alt <;>
    rw [scoreItinerary, halt] at h
  · exact absurd h (by simp)
  · obtain rfl : _ = r := by simpa using h
    refine ⟨rfl, ?_⟩
    push_cast
    ring

/-- C1: for every crew and method on which the computation succeeds, the
ranker returns the full catalog (a permutation of the itineraries table,
no truncation); every result's total is the sum of its five components; the
list is sorted by total score descending; the rank at position `i` is
`i + 1`; and results with equal totals appear in catalog order (their
itinerary codes ascend within each total class, the pre-sort order being
the catalog sorted by itinerary code). -/
theorem C1_itinerary_ranking (db : Database) (crew_id : Nat) (method : String)
    (results : List RankedResult)
    (h : calculate_itinerary_scores db crew_id method = some results) :
    (results.map (fun r => r.itinerary)).Perm db.itineraries ∧
    (∀ r ∈ results, r.total_score = r.program_score + (r.difficulty_score : ℚ) +
      (r.area_score : ℚ) + (r.altitude_score : ℚ) + (r.distance_score : ℚ)) ∧
    results.Pairwise (fun a b => b.total_score ≤ a.total_score) ∧
    (∀ (i : Nat) (hi : i < results.length), (results.get ⟨i, hi⟩).ranking = i + 1) ∧
    (∀ t : ℚ, ((results.filter (fun r => decide (r.total_score = t))).map
        (fun r => r.itinerary.itinerary_code)).Pairwise (· ≤ ·)) := by
  rw [calculate_itinerary_scores] at h
  rcases hmo : mapOption
      (scoreItinerary db (get_crew_preferences db crew_id)
        (get_program_scores db crew_id method))
      (List.insertionSort codeLE db.itineraries) with _ | pre <;>
    rw [hmo] at h
  · exact absurd h (by simp)
  obtain rfl : rankAssign (List.insertionSort totalGE pre) 1 = results := by
    simpa using h
  have hpre_map : pre.map (fun r => r.itinerary) =
      List.insertionSort codeLE db.itineraries :=
    mapOption_map_eq _ _ (fun x y hxy => (scoreItinerary_shape hxy).1) _ _ hmo
  have hsort_perm : (List.insertionSort totalGE pre).Perm pre :=
    List.perm_insertionSort totalGE pre
  refine ⟨?_, ?_, ?_, ?_, ?_⟩
  · rw [rankAssign_map_itinerary]
    refine (hsort_perm.map _).trans ?_
    rw [hpre_map]
    exact List.perm_insertionSort codeLE db.itineraries
  · intro r hr
    obtain ⟨r0, hr0, j, rfl⟩ := rankAssign_mem hr
    have hr0pre : r0 ∈ pre := (List.mem_insertionSort totalGE).mp hr0
    obtain ⟨itin, -, hstep⟩ := mem_mapOption _ hmo hr0pre
    exact (scoreItinerary_shape hstep).2
  · exact rankAssign_pairwise _ 1
      (List.sorted_insertionSort totalGE pre)
  · intro i hi
    have := rankAssign_get (List.insertionSort totalGE pre) 1 i hi
    rw [this, Nat.add_comm]
  · intro t
    have hfilter_eq :
        (List.insertionSort totalGE pre).filter (fun r => decide (r.total_score = t)) =
          pre.filter (fun r => decide (r.total_score = t)) := by
      have hsub : List.Sublist (pre.filter (fun r => decide (r.total_score = t))) pre :=
        List.filter_sublist pre
      have hpw : (pre.filter (fun r => decide (r.total_score = t))).Pairwise totalGE := by
        refine List.pairwise_of_forall_mem_list ?_
        intro a ha b hb
        have ha' : a.total_score = t := by
          simpa using (List.mem_filter.mp ha).2
        have hb' : b.total_score = t := by
          simpa using (List.mem_filter.mp hb).2
        unfold totalGE
        rw [ha', hb']
      have h1 : List.Sublist (pre.filter (fun r => decide (r.total_score = t)))
          (List.insertionSort totalGE pre) :=
        List.sublist_insertionSort hpw hsub
      have h2 : List.Sublist (pre.filter (fun r => decide (r.total_score = t)))
          ((List.insertionSort totalGE pre).filter (fun r => decide (r.total_score = t))) := by
        have h3 := h1.filter (fun r => decide (r.total_score = t))
        rwa [List.filter_eq_self.mpr (fun a ha => (List.mem_filter.mp ha).2)] at h3
      exact (h2.eq_of_length
        ((hsort_perm.filter _).length_eq.symm)).symm
    rw [rankAssign_filter_map_code, hfilter_eq]
    have hcodes : pre.Pairwise (fun a b => codeLE a.itinerary b.itinerary) := by
      have hs : (pre.map (fun r => r.itinerary)).Pairwise codeLE := by
        rw [hpre_map]
        exact List.sorted_insertionSort codeLE db.itineraries
      exact (List.pairwise_map).mp hs
    have hfpw : (pre.filter (fun r => decide (r.total_score = t))).Pairwise
        (fun a b => codeLE a.itinerary b.itinerary) :=
      hcodes.sublist (List.filter_sublist pre)
    exact (List.pairwise_map).mpr hfpw

/-- Witness itinerary with code "A": offers program 1, difficulty `"S"`,
distance 50, altitude 9000. -/
def itinWA : Itinerary :=
  { id := 1, itinerary_code := "A", difficulty := some "S", distance := some 50,
    max_altitude := some 9000, covers_south := false, covers_central := false,
    covers_north := false, covers_valle_vidal := false }

/-- Witness itinerary with code "B": no programs, difficulty `"C"`,
distance 80, altitude unset. -/
def itinWB : Itinerary :=
  { id := 2, itinerary_code := "B", difficulty := some "C", distance := some 80,
    max_altitude := none, covers_south := false, covers_central := false,
    covers_north := false, covers_valle_vidal := false }

/-- Witness database: one program scored 10 by one member of crew 1, two
itineraries stored out of code order, no preferences row. -/
def dbW : Database :=
  { programs := [{ id := 1, name := "Climbing" }],
    program_scores := [{ crew_id := 1, crew_member_id := 1, program_id := 1, score := 10 }],
    itineraries := [itinWB, itinWA],
    itinerary_programs := [{ itinerary_id := 1, program_id := 1, is_available := true }],
    crew_preferences := [] }

/-- The ranking the scorer computes on `dbW` for crew 1, method `Total`:
itinerary A totals 15 + 100 + 0 + 0 + 100 = 215 and ranks first, B totals
0 + 100 + 0 + 0 + 70 = 170 and ranks second. -/
def resultsW : List RankedResult :=
  [{ itinerary := itinWA, program_score := 15, difficulty_score := 100, area_score := 0,
     altitude_score := 0, distance_score := 100, total_score := 215, ranking := 1 },
   { itinerary := itinWB, program_score := 0, difficulty_score := 100, area_score := 0,
     altitude_score := 0, distance_score := 70, total_score := 170, ranking := 2 }]

/-- C1 witness: on `dbW` the computation succeeds with `resultsW`, whose
itineraries are a permutation of the catalog and whose ranks are the
1-based positions. -/
theorem C1_itinerary_ranking_witness :
    ((resultsW.map (fun r => r.itinerary)).Perm dbW.itineraries) ∧
    (∀ (i : Nat) (hi : i < resultsW.length), (resultsW.get ⟨i, hi⟩).ranking = i + 1) := by
  have h := C1_itinerary_ranking dbW 1 "Total" resultsW (by
    simp [calculate_itinerary_scores, get_program_scores, queryRows, groupLoop,
      calculate_aggregate, get_crew_preferences, List.insertionSort, List.orderedInsert,
      mapOption, scoreItinerary, calculate_program_score, availablePrograms,
      calculate_difficulty_score, calculate_area_score, calculate_altitude_score,
      calculate_distance_score, prefGetBool, prefGetRank, prefGetThreshold, rankAssign,
      totalGE, codeLE, rowLE, List.lookup, areaContribution, dbW, itinWA, itinWB, resultsW]
    norm_num
    simp [rankAssign, resultsW, itinWA, itinWB])
  exact ⟨h.1, h.2.2.2.1⟩

end PhilSelect
